import Mathlib

/-!
Shallow embedding of the SCS_E3_Neopixels Arduino sketch: the `NeoPatterns`
class (a pattern engine derived from `Adafruit_NeoPixel`), its pattern
initializers and per-tick update methods, the global three-strip program
state, the serial command dispatch `read_from_serial`, and the completion
callback `StripComplete`.

Machine integers are modelled as `Nat`, reduced modulo 2^8 / 2^16 / 2^32
exactly at the points where the C++ code's unsigned arithmetic wraps
(`uint8_t` color channels, the `uint16_t` fields `TotalSteps` and `Index`,
and the `unsigned long` millisecond clock).  The pixel buffer of the base
class is a `List Nat` of packed `0x00RRGGBB` colors; the base class method
`show()` (the commit of the buffer to the hardware) is modelled as a ghost
log that prepends the committed buffer, so that commits are observable.
The completion callback (a C function pointer that may be `NULL`) is an
`Option (NeoPatterns → NeoPatterns)` parameter.
-/

namespace Neo

/-- The C enum `pattern { NONE, RAINBOW_CYCLE, THEATER_CHASE, COLOR_WIPE, SCANNER, FADE, PULSE }`. -/
inductive pattern where
  | NONE
  | RAINBOW_CYCLE
  | THEATER_CHASE
  | COLOR_WIPE
  | SCANNER
  | FADE
  | PULSE
deriving Repr, DecidableEq

/-- The C enum `direction { FORWARD, REVERSE }`. -/
inductive direction where
  | FORWARD
  | REVERSE
deriving Repr, DecidableEq

/-- State of one `NeoPatterns` object: its member variables plus the pixel
buffer inherited from `Adafruit_NeoPixel` and a ghost log of committed
buffers (one entry per `show()` call, newest first). -/
structure NeoPatterns where
  ActivePattern : pattern
  Direction : direction
  Interval : Nat      -- unsigned long
  lastUpdate : Nat    -- unsigned long
  Color1 : Nat        -- uint32_t packed color
  Color2 : Nat        -- uint32_t packed color
  TotalSteps : Nat    -- uint16_t
  Index : Nat         -- uint16_t
  pixels : List Nat   -- the Adafruit_NeoPixel buffer, one packed color per pixel
  shows : List (List Nat)  -- ghost: buffers committed by show(), newest first
deriving Repr, DecidableEq

/-- 16-bit unsigned subtraction `a - b` as it wraps on `uint16_t`. -/
def sub16 (a b : Nat) : Nat := (a % 65536 + 65536 - b % 65536) % 65536

/-- `Adafruit_NeoPixel::Color(r, g, b)`: pack three `uint8_t` channels into a `uint32_t`. -/
def Color (r g b : Nat) : Nat := (r % 256) * 65536 + (g % 256) * 256 + (b % 256)

/-- `NeoPatterns::Red`: the red component of a 32-bit color, `(color >> 16) & 0xFF`. -/
def Red (c : Nat) : Nat := c / 65536 % 256

/-- `NeoPatterns::Green`: the green component of a 32-bit color, `(color >> 8) & 0xFF`. -/
def Green (c : Nat) : Nat := c / 256 % 256

/-- `NeoPatterns::Blue`: the blue component of a 32-bit color, `color & 0xFF`. -/
def Blue (c : Nat) : Nat := c % 256

/-- `Adafruit_NeoPixel::numPixels()`. -/
def numPixels (s : NeoPatterns) : Nat := s.pixels.length

/-- `Adafruit_NeoPixel::setPixelColor(i, c)`: silent no-op when `i` is out of range. -/
def setPixelColor (i c : Nat) (s : NeoPatterns) : NeoPatterns :=
  { s with pixels := s.pixels.set i c }

/-- `Adafruit_NeoPixel::getPixelColor(i)`: 0 when `i` is out of range. -/
def getPixelColor (i : Nat) (s : NeoPatterns) : Nat := s.pixels.getD i 0

/-- `Adafruit_NeoPixel::show()`: commit the buffer (recorded on the ghost log). -/
def showPix (s : NeoPatterns) : NeoPatterns := { s with shows := s.pixels :: s.shows }

/-- `NeoPatterns::ColorSet(color)`: set every pixel to `color`, then `show()`. -/
def ColorSet (c : Nat) (s : NeoPatterns) : NeoPatterns :=
  showPix { s with pixels := s.pixels.map (fun _ => c) }

/-- `NeoPatterns::Increment()` without the callback: returns the new state and
whether the completion boundary was hit.  `Index` is `uint16_t`, so `Index++`
and `--Index` wrap modulo 2^16, and the reverse-branch test `Index <= 0`
holds on an unsigned value exactly when the decremented index is 0. -/
def IncrementCore (s : NeoPatterns) : NeoPatterns × Bool :=
  match s.Direction with
  | .FORWARD =>
    let i := (s.Index + 1) % 65536
    if s.TotalSteps ≤ i then
      ({ s with Index := 0 }, true)
    else
      ({ s with Index := i }, false)
  | .REVERSE =>
    let i := (s.Index + 65535) % 65536
    if i = 0 then
      ({ s with Index := sub16 s.TotalSteps 1 }, true)
    else
      ({ s with Index := i }, false)

/-- Invocation of the completion callback: `NULL` (`none`) is skipped. -/
def applyCb (cb : Option (NeoPatterns → NeoPatterns)) (s : NeoPatterns) : NeoPatterns :=
  match cb with
  | none => s
  | some f => f s

/-- `NeoPatterns::Increment()`: advance `Index`, and at the boundary invoke
the completion callback `cb` when it is non-null. -/
def Increment (cb : Option (NeoPatterns → NeoPatterns)) (s : NeoPatterns) : NeoPatterns :=
  if (IncrementCore s).2 then applyCb cb (IncrementCore s).1 else (IncrementCore s).1

/-- `NeoPatterns::Reverse()`: flip the direction, resetting `Index` to
`TotalSteps - 1` (uint16) or to 0. -/
def Reverse (s : NeoPatterns) : NeoPatterns :=
  match s.Direction with
  | .FORWARD => { s with Direction := .REVERSE, Index := sub16 s.TotalSteps 1 }
  | .REVERSE => { s with Direction := .FORWARD, Index := 0 }

/-- `NeoPatterns::Wheel(WheelPos)`: the R-G-B color wheel on a byte position. -/
def Wheel (p : Nat) : Nat :=
  let w := 255 - p % 256
  if w < 85 then
    Color (255 - w * 3) 0 (w * 3)
  else if w < 170 then
    Color 0 ((w - 85) * 3) (255 - (w - 85) * 3)
  else
    Color ((w - 170) * 3) (255 - (w - 170) * 3) 0

/-- `NeoPatterns::DimColor(color)`: each channel shifted right by one bit. -/
def DimColor (c : Nat) : Nat := Color (Red c / 2) (Green c / 2) (Blue c / 2)

/-- Frame of `NeoPatterns::RainbowCycleUpdate()` (the rendering and the `show()`,
before `Increment()`). -/
def RainbowCycleFrame (s : NeoPatterns) : NeoPatterns :=
  let px := (List.range s.pixels.length).map
    (fun i => Wheel ((i * 256 / s.pixels.length + s.Index) % 256))
  showPix { s with pixels := px }

/-- Frame of `NeoPatterns::TheaterChaseUpdate()`. -/
def TheaterChaseFrame (s : NeoPatterns) : NeoPatterns :=
  let px := (List.range s.pixels.length).map
    (fun i => if (i + s.Index) % 3 = 0 then s.Color1 else s.Color2)
  showPix { s with pixels := px }

/-- Frame of `NeoPatterns::ColorWipeUpdate()`: set pixel `Index` to `Color1`, `show()`. -/
def ColorWipeFrame (s : NeoPatterns) : NeoPatterns :=
  showPix (setPixelColor s.Index s.Color1 s)

/-- Frame of `NeoPatterns::ScannerUpdate()`: two bright dots at `Index` and
`TotalSteps - Index` (uint16), every other pixel dimmed in place. -/
def ScannerFrame (s : NeoPatterns) : NeoPatterns :=
  let px := (List.range s.pixels.length).map
    (fun i =>
      if i = s.Index then s.Color1
      else if i = sub16 s.TotalSteps s.Index then s.Color1
      else DimColor (s.pixels.getD i 0))
  showPix { s with pixels := px }

/-- Frame of `NeoPatterns::FadeUpdate()`: per-channel linear interpolation
between `Color1` and `Color2` (the `uint8_t` assignment truncates mod 256,
which `Color` performs), applied to the whole strip by `ColorSet` (which
shows), followed by the method's own `show()`. -/
def FadeFrame (s : NeoPatterns) : NeoPatterns :=
  let red := (Red s.Color1 * sub16 s.TotalSteps s.Index + Red s.Color2 * s.Index) / s.TotalSteps
  let green := (Green s.Color1 * sub16 s.TotalSteps s.Index + Green s.Color2 * s.Index) / s.TotalSteps
  let blue := (Blue s.Color1 * sub16 s.TotalSteps s.Index + Blue s.Color2 * s.Index) / s.TotalSteps
  showPix (ColorSet (Color red green blue) s)

/-- `NeoPatterns::RainbowCycleUpdate()`: frame, then `Increment()`. -/
def RainbowCycleUpdate (cb : Option (NeoPatterns → NeoPatterns)) (s : NeoPatterns) : NeoPatterns :=
  Increment cb (RainbowCycleFrame s)

/-- `NeoPatterns::TheaterChaseUpdate()`: frame, then `Increment()`. -/
def TheaterChaseUpdate (cb : Option (NeoPatterns → NeoPatterns)) (s : NeoPatterns) : NeoPatterns :=
  Increment cb (TheaterChaseFrame s)

/-- `NeoPatterns::ColorWipeUpdate()`: frame, then `Increment()`. -/
def ColorWipeUpdate (cb : Option (NeoPatterns → NeoPatterns)) (s : NeoPatterns) : NeoPatterns :=
  Increment cb (ColorWipeFrame s)

/-- `NeoPatterns::ScannerUpdate()`: frame, then `Increment()`. -/
def ScannerUpdate (cb : Option (NeoPatterns → NeoPatterns)) (s : NeoPatterns) : NeoPatterns :=
  Increment cb (ScannerFrame s)

/-- `NeoPatterns::FadeUpdate()`: frame, then `Increment()`. -/
def FadeUpdate (cb : Option (NeoPatterns → NeoPatterns)) (s : NeoPatterns) : NeoPatterns :=
  Increment cb (FadeFrame s)

/-- `NeoPatterns::PulseUpdate()`: its body is a single call to `FadeUpdate()`. -/
def PulseUpdate (cb : Option (NeoPatterns → NeoPatterns)) (s : NeoPatterns) : NeoPatterns :=
  FadeUpdate cb s

/-- One rendered-and-shown frame for each pattern kind, as dispatched by the
switch in `NeoPatterns::Update()`; `NONE` falls to the default branch, and
`PULSE` renders via `FadeUpdate` exactly as `FADE` does. -/
def frameFor : pattern → NeoPatterns → NeoPatterns
  | .RAINBOW_CYCLE, s => RainbowCycleFrame s
  | .THEATER_CHASE, s => TheaterChaseFrame s
  | .COLOR_WIPE, s => ColorWipeFrame s
  | .SCANNER, s => ScannerFrame s
  | .FADE, s => FadeFrame s
  | .PULSE, s => FadeFrame s
  | .NONE, s => s

/-- `millis() - lastUpdate` on `unsigned long` (32-bit wraparound subtraction). -/
def elapsedMs (now : Nat) (s : NeoPatterns) : Nat :=
  (now % 4294967296 + 4294967296 - s.lastUpdate % 4294967296) % 4294967296

/-- `NeoPatterns::Update()` without the callback: if the interval has elapsed
(strictly: `(millis() - lastUpdate) > Interval`), record the time and run one
pattern update; report whether the completion boundary was hit. -/
def UpdateCore (now : Nat) (s : NeoPatterns) : NeoPatterns × Bool :=
  if s.Interval < elapsedMs now s then
    let s1 := { s with lastUpdate := now % 4294967296 }
    if s1.ActivePattern = .NONE then (s1, false)
    else IncrementCore (frameFor s1.ActivePattern s1)
  else (s, false)

/-- `NeoPatterns::Update()` with completion callback `cb`. -/
def Update (cb : Option (NeoPatterns → NeoPatterns)) (now : Nat) (s : NeoPatterns) : NeoPatterns :=
  if (UpdateCore now s).2 then applyCb cb (UpdateCore now s).1 else (UpdateCore now s).1

/-- `NeoPatterns::RainbowCycle(interval, dir)` initializer. -/
def RainbowCycle (interval : Nat) (dir : direction) (s : NeoPatterns) : NeoPatterns :=
  { s with ActivePattern := .RAINBOW_CYCLE, Interval := interval, TotalSteps := 255,
           Index := 0, Direction := dir }

/-- `NeoPatterns::TheaterChase(color1, color2, interval, dir)` initializer. -/
def TheaterChase (color1 color2 interval : Nat) (dir : direction) (s : NeoPatterns) : NeoPatterns :=
  { s with ActivePattern := .THEATER_CHASE, Interval := interval, TotalSteps := numPixels s,
           Color1 := color1, Color2 := color2, Index := 0, Direction := dir }

/-- `NeoPatterns::ColorWipe(color, interval, dir)` initializer. -/
def ColorWipe (color interval : Nat) (dir : direction) (s : NeoPatterns) : NeoPatterns :=
  { s with ActivePattern := .COLOR_WIPE, Interval := interval, TotalSteps := numPixels s,
           Color1 := color, Index := 0, Direction := dir }

/-- `NeoPatterns::Scanner(color1, interval)` initializer; `(numPixels()-1)*2` on `uint16_t`. -/
def Scanner (color1 interval : Nat) (s : NeoPatterns) : NeoPatterns :=
  { s with ActivePattern := .SCANNER, Interval := interval,
           TotalSteps := sub16 (numPixels s) 1 * 2 % 65536, Color1 := color1, Index := 0 }

/-- `NeoPatterns::Fade(color1, color2, steps, interval, dir)` initializer. -/
def Fade (color1 color2 steps interval : Nat) (dir : direction) (s : NeoPatterns) : NeoPatterns :=
  { s with ActivePattern := .FADE, Interval := interval, TotalSteps := steps,
           Color1 := color1, Color2 := color2, Index := 0, Direction := dir }

/-- `NeoPatterns::Pulse(color1, color2, steps, interval, dir)` initializer. -/
def Pulse (color1 color2 steps interval : Nat) (dir : direction) (s : NeoPatterns) : NeoPatterns :=
  { s with ActivePattern := .PULSE, Interval := interval, TotalSteps := steps,
           Color1 := color1, Color2 := color2, Index := 0, Direction := dir }

/-- The three global strip objects. -/
structure StripSystem where
  Strip1 : NeoPatterns
  Strip2 : NeoPatterns
  Strip3 : NeoPatterns
deriving Repr, DecidableEq

/-- The effect of `StripComplete()` on one strip: `if (Strip.ActivePattern == PULSE) Strip.Reverse();`. -/
def StripCompleteE (s : NeoPatterns) : NeoPatterns :=
  if s.ActivePattern = .PULSE then Reverse s else s

/-- `StripComplete()`: reverse each of the three strips that is in `PULSE`. -/
def StripComplete (sys : StripSystem) : StripSystem :=
  { Strip1 := StripCompleteE sys.Strip1,
    Strip2 := StripCompleteE sys.Strip2,
    Strip3 := StripCompleteE sys.Strip3 }

/-- `Strip1.Update()` at system level: the completion callback is the global
`StripComplete`, invoked after the index reset inside `Increment`. -/
def UpdateSys1 (now : Nat) (sys : StripSystem) : StripSystem :=
  let p := UpdateCore now sys.Strip1
  let sys1 := { sys with Strip1 := p.1 }
  if p.2 then StripComplete sys1 else sys1

/-- `Strip2.Update()` at system level. -/
def UpdateSys2 (now : Nat) (sys : StripSystem) : StripSystem :=
  let p := UpdateCore now sys.Strip2
  let sys2 := { sys with Strip2 := p.1 }
  if p.2 then StripComplete sys2 else sys2

/-- `Strip3.Update()` at system level. -/
def UpdateSys3 (now : Nat) (sys : StripSystem) : StripSystem :=
  let p := UpdateCore now sys.Strip3
  let sys3 := { sys with Strip3 := p.1 }
  if p.2 then StripComplete sys3 else sys3

/-- One iteration of `loop()`'s strip updates: `Strip1.Update(); Strip2.Update(); Strip3.Update();`
with the three `millis()` readings `n1`, `n2`, `n3`. -/
def loopStrips (n1 n2 n3 : Nat) (sys : StripSystem) : StripSystem :=
  UpdateSys3 n3 (UpdateSys2 n2 (UpdateSys1 n1 sys))

/-- A sequence of loop iterations, each with its `millis()` readings. -/
def runTicks (ts : List (Nat × Nat × Nat)) (sys : StripSystem) : StripSystem :=
  ts.foldl (fun s t => loopStrips t.1 t.2.1 t.2.2 s) sys

/-- `read_from_serial()` on one incoming byte (ASCII codes: 48 is the
character 0, ..., 57 is the character 9); unrecognized bytes are dropped. -/
def read_from_serial (b : Nat) (sys : StripSystem) : StripSystem :=
  if b = 48 then
    { Strip1 := ColorSet (Color 0 0 0) { sys.Strip1 with ActivePattern := .NONE },
      Strip2 := ColorSet (Color 0 0 0) { sys.Strip2 with ActivePattern := .NONE },
      Strip3 := ColorSet (Color 0 0 0) { sys.Strip3 with ActivePattern := .NONE } }
  else if b = 49 then
    { sys with Strip1 := Pulse (Color 0 0 0) (Color 127 127 0) 50 10 .FORWARD sys.Strip1 }
  else if b = 50 then
    { sys with Strip2 := Pulse (Color 0 0 0) (Color 0 127 0) 50 10 .FORWARD sys.Strip2 }
  else if b = 51 then
    { sys with Strip3 := Pulse (Color 0 0 0) (Color 0 0 127) 50 10 .FORWARD sys.Strip3 }
  else if b = 52 then
    { sys with Strip1 := ColorSet (Color 127 0 0) { sys.Strip1 with ActivePattern := .NONE } }
  else if b = 53 then
    { sys with Strip2 := ColorSet (Color 127 0 0) { sys.Strip2 with ActivePattern := .NONE } }
  else if b = 54 then
    { sys with Strip3 := ColorSet (Color 127 0 0) { sys.Strip3 with ActivePattern := .NONE } }
  else if b = 55 then
    { sys with Strip1 := ColorSet (Color 127 127 0) { sys.Strip1 with ActivePattern := .NONE } }
  else if b = 56 then
    { sys with Strip2 := ColorSet (Color 0 127 0) { sys.Strip2 with ActivePattern := .NONE } }
  else if b = 57 then
    { sys with Strip3 := ColorSet (Color 0 0 127) { sys.Strip3 with ActivePattern := .NONE } }
  else sys

/-- A freshly constructed strip with buffer `b` (all state zeroed, as for a
global object before any pattern initializer has run). -/
def mkStrip (b : List Nat) : NeoPatterns :=
  { ActivePattern := .NONE, Direction := .FORWARD, Interval := 0, lastUpdate := 0,
    Color1 := 0, Color2 := 0, TotalSteps := 0, Index := 0, pixels := b, shows := [] }

/-- A strip running `FADE` in reverse with `TotalSteps = 50` at `Index = 0`
(the state produced by `Fade(..., 50, 10, REVERSE)`). -/
def eRev0 : NeoPatterns :=
  Fade 0 (Color 0 0 127) 50 10 .REVERSE (mkStrip [0, 0])

/-- `eRev0` one step into the reverse sweep, at `Index = 1`. -/
def eRev1 : NeoPatterns := { eRev0 with Index := 1 }

/-- A strip running `FADE` forward, `Interval = 10`, `lastUpdate = 0`,
`TotalSteps = 50`, `Index = 5`. -/
def eBoundary : NeoPatterns :=
  { mkStrip [0, 0] with
      ActivePattern := .FADE, Direction := .FORWARD, Interval := 10,
      Color1 := Color 127 127 0, Color2 := 0, TotalSteps := 50, Index := 5 }

/-- The strip-1 state right after the command byte `'1'`: `Pulse` from black
toward a color with `TotalSteps = 3` (scaled down from 50 for evaluation),
forward from `Index = 0`, on a 2-pixel buffer. -/
def ePulse3 : NeoPatterns :=
  Pulse (Color 0 0 0) (Color 0 0 127) 3 10 .FORWARD (mkStrip [0, 0])

/-- On `uint16` values with `b ≤ a < 2^16`, the wrapping subtraction is plain subtraction. -/
theorem sub16_eq (a b : Nat) (hb : b ≤ a) (ha : a < 65536) : sub16 a b = a - b := by
  unfold sub16
  omega

/-- Extracting the red channel of a packed color recovers the byte. -/
theorem Red_Color (r g b : Nat) : Red (Color r g b) = r % 256 := by
  unfold Red Color
  omega

/-- Extracting the green channel of a packed color recovers the byte. -/
theorem Green_Color (r g b : Nat) : Green (Color r g b) = g % 256 := by
  unfold Green Color
  omega

/-- Extracting the blue channel of a packed color recovers the byte. -/
theorem Blue_Color (r g b : Nat) : Blue (Color r g b) = b % 256 := by
  unfold Blue Color
  omega

/-- The interpolated channel `(a*(T-I) + b*I) / T` stays below 256 when the
two endpoint channels do and `I ≤ T`. -/
theorem interp_channel_lt (a b T I : Nat) (ha : a < 256) (hb : b < 256)
    (hI : I ≤ T) (hT : 0 < T) : (a * (T - I) + b * I) / T < 256 := by
  have h1 : a * (T - I) + b * I ≤ 255 * (T - I) + 255 * I :=
    Nat.add_le_add (Nat.mul_le_mul_right _ (by omega)) (Nat.mul_le_mul_right _ (by omega))
  have h2 : 255 * (T - I) + 255 * I = 255 * T := by
    rw [← Nat.mul_add]
    congr 1
    omega
  have h3 : (a * (T - I) + b * I) / T ≤ 255 * T / T :=
    Nat.div_le_div_right (h2 ▸ h1)
  rw [Nat.mul_div_cancel _ hT] at h3
  omega

/-- Each channel of any packed color is below 256. -/
theorem channel_lt (c : Nat) : Red c < 256 ∧ Green c < 256 ∧ Blue c < 256 := by
  unfold Red Green Blue
  omega

/-- C1: the claim says that in `REVERSE` with `TotalSteps > 0`, `Increment()`
decrements `Index` and, when `Index` would go below 0, resets it to
`TotalSteps - 1` and invokes the completion callback, once per traversal of
`[0, TotalSteps)`.  The code instead decrements the `uint16_t` first and
tests `Index <= 0` after: from `Index = 0` it wraps to 65535 with no reset
and no callback, and the reset/callback fire already at `Index = 1` (the
decrement reaching 0), so `Index = 0` is skipped in reverse. -/
theorem increment_reverse_boundary_bug :
    (Increment none eRev0).Index = 65535 ∧ (IncrementCore eRev0).2 = false ∧
    (Increment none eRev1).Index = 49 ∧ (IncrementCore eRev1).2 = true := by
  decide

/-- C2 counterexample: at `nowMs - LastUpdateMs = IntervalMs` exactly (here
10 = 10), the claim's no-op condition `nowMs - LastUpdateMs < IntervalMs`
is false, so the claim requires `LastUpdateMs := nowMs` and a frame; the
code's test `(millis() - lastUpdate) > Interval` is also false, so the call
is a no-op and `lastUpdate` stays 0, not 10. -/
theorem update_at_exact_interval_is_noop :
    ¬ elapsedMs 10 eBoundary < eBoundary.Interval ∧
    Update none 10 eBoundary = eBoundary ∧
    (Update none 10 eBoundary).lastUpdate ≠ 10 := by
  decide

/-- C3: with the direction-reversing callback `StripCompleteE` installed and
`TotalSteps = 3`, a `Pulse` started forward at `Index = 0` is in `REVERSE`
at `Index = TotalSteps - 1 = 2` after 3 elapsed ticks as the claim states;
but after another 3 elapsed ticks it is at `Index = 1`, not 0: the reverse
sweep skips `Index` 0 and completes after `TotalSteps - 1 = 2` ticks (at
tick 5), so the claimed `Index = 0` after `2 * TotalSteps` ticks fails. -/
theorem pulse_round_trip_is_one_tick_short :
    ((PulseUpdate (some StripCompleteE))^[3] ePulse3).Direction = .REVERSE ∧
    ((PulseUpdate (some StripCompleteE))^[3] ePulse3).Index = 2 ∧
    ((PulseUpdate (some StripCompleteE))^[5] ePulse3).Direction = .FORWARD ∧
    ((PulseUpdate (some StripCompleteE))^[5] ePulse3).Index = 0 ∧
    ((PulseUpdate (some StripCompleteE))^[6] ePulse3).Direction = .FORWARD ∧
    ((PulseUpdate (some StripCompleteE))^[6] ePulse3).Index = 1 := by
  decide

/-- C6: the invariant `0 ≤ Index < TotalSteps` holds right after
`Fade(..., dir = REVERSE)` initializes `Index = 0`, but the very next
`Increment()` wraps the `uint16_t` index to 65535 ≥ `TotalSteps = 50`,
violating the claimed invariant. -/
theorem reverse_init_then_increment_breaks_invariant :
    eRev0.Index < eRev0.TotalSteps ∧
    (Increment none eRev0).Index = 65535 ∧
    ¬ (Increment none eRev0).Index < (Increment none eRev0).TotalSteps := by
  decide

/-- C7: `PulseUpdate()`'s rendering is identical to `FadeUpdate()`'s: the
method body is a single call to `FadeUpdate()`, and the frame dispatched
for `PULSE` is the frame dispatched for `FADE`. -/
theorem pulse_renders_exactly_as_fade (cb : Option (NeoPatterns → NeoPatterns))
    (s : NeoPatterns) :
    PulseUpdate cb s = FadeUpdate cb s ∧ frameFor .PULSE s = frameFor .FADE s :=
  ⟨rfl, rfl⟩

/-- C9: a null (`none`) completion callback is skipped, not a fault: the
null-callback `Increment` is exactly the core index update, and an installed
callback `f` runs exactly when the boundary is hit, on top of the very same
index reset. -/
theorem null_callback_same_reset_skips_invocation (s : NeoPatterns)
    (f : NeoPatterns → NeoPatterns) :
    Increment none s = (IncrementCore s).1 ∧
    Increment (some f) s =
      (if (IncrementCore s).2 then f (IncrementCore s).1 else (IncrementCore s).1) :=
  ⟨by simp [Increment, applyCb], rfl⟩

/-- A null callback leaves `Increment` as exactly the core index update. -/
theorem Increment_none (s : NeoPatterns) : Increment none s = (IncrementCore s).1 := by
  simp [Increment, applyCb]

/-- A null callback leaves `Update` as exactly the core update. -/
theorem Update_none (now : Nat) (s : NeoPatterns) :
    Update none now s = (UpdateCore now s).1 := by
  simp [Update, applyCb]

/-- Setting cell `k` of a buffer whose first `k` cells are already `c` fills one more cell. -/
theorem set_fill (c : Nat) : ∀ (k : Nat) (b : List Nat), k < b.length →
    (List.replicate k c ++ b.drop k).set k c = List.replicate (k + 1) c ++ b.drop (k + 1)
  | 0, [], h => by simp at h
  | 0, x :: t, _ => by simp
  | k + 1, [], h => by simp at h
  | k + 1, x :: t, h => by
    simp only [List.replicate_succ, List.drop_succ_cons, List.cons_append, List.set_cons_succ]
    rw [set_fill c k t (by simpa using h)]
    simp [List.replicate_succ]

/-- One `ColorWipeUpdate` on a forward state: paint cell `Index` with `Color1`,
commit, and step the index (wrapping to 0 with the completion flag at the end). -/
theorem colorwipe_step (e : NeoPatterns) (hdir : e.Direction = .FORWARD)
    (hi : e.Index + 1 < 65536) :
    ColorWipeUpdate none e =
      if e.TotalSteps ≤ e.Index + 1 then
        { e with pixels := e.pixels.set e.Index e.Color1,
                 shows := e.pixels.set e.Index e.Color1 :: e.shows, Index := 0 }
      else
        { e with pixels := e.pixels.set e.Index e.Color1,
                 shows := e.pixels.set e.Index e.Color1 :: e.shows, Index := e.Index + 1 } := by
  rw [ColorWipeUpdate, Increment_none]
  simp only [IncrementCore, ColorWipeFrame, setPixelColor, showPix, hdir]
  rw [Nat.mod_eq_of_lt hi]
  split <;> rfl

/-- Invariant of the forward ColorWipe run started by `ColorWipe(c, iv, FORWARD)`
on a fresh strip with buffer `b`: after `k ≤ N` updates the first `k` cells
are `c`, the rest still hold `b`, and the index is `k` (0 after the wrap). -/
theorem wipe_iter (b : List Nat) (c iv : Nat) (hW : b.length < 65536) :
    ∀ k, k ≤ b.length →
      ((ColorWipeUpdate none)^[k] (ColorWipe c iv .FORWARD (mkStrip b))).ActivePattern = .COLOR_WIPE ∧
      ((ColorWipeUpdate none)^[k] (ColorWipe c iv .FORWARD (mkStrip b))).Direction = .FORWARD ∧
      ((ColorWipeUpdate none)^[k] (ColorWipe c iv .FORWARD (mkStrip b))).Color1 = c ∧
      ((ColorWipeUpdate none)^[k] (ColorWipe c iv .FORWARD (mkStrip b))).TotalSteps = b.length ∧
      ((ColorWipeUpdate none)^[k] (ColorWipe c iv .FORWARD (mkStrip b))).pixels
        = List.replicate k c ++ b.drop k ∧
      ((ColorWipeUpdate none)^[k] (ColorWipe c iv .FORWARD (mkStrip b))).Index
        = (if k < b.length then k else 0) := by
  intro k
  induction k with
  | zero =>
    intro _
    refine ⟨rfl, rfl, rfl, ?_, ?_, ?_⟩
    · simp [ColorWipe, mkStrip, numPixels]
    · simp [ColorWipe, mkStrip]
    · split <;> rfl
  | succ k ih =>
    intro hk
    have hklt : k < b.length := Nat.lt_of_succ_le hk
    obtain ⟨hap, hdir, hc1, hts, hpx, hidx⟩ := ih (Nat.le_of_succ_le hk)
    have hidx' : ((ColorWipeUpdate none)^[k] (ColorWipe c iv .FORWARD (mkStrip b))).Index = k := by
      rw [hidx, if_pos hklt]
    rw [Function.iterate_succ_apply']
    rw [colorwipe_step _ hdir (by omega)]
    rw [hidx', hts, hc1, hpx]
    rw [set_fill c k b hklt]
    by_cases hend : k + 1 = b.length
    · rw [if_pos (by omega)]
      refine ⟨hap, hdir, rfl, rfl, rfl, ?_⟩
      rw [if_neg (by omega)]
    · rw [if_neg (by omega)]
      refine ⟨hap, hdir, rfl, rfl, rfl, ?_⟩
      rw [if_pos (by omega)]

/-- C5: a forward ColorWipe over a buffer of length `N > 0` visits indices
`0, 1, ..., N-1` in ascending order, each frame writing exactly the one cell
at the current index (the buffer after frame `k+1` is the buffer after frame
`k` with cell `k` set to `Color1`), and after `N` frames every cell holds
`Color1`. -/
theorem color_wipe_full_cycle (b : List Nat) (c iv : Nat)
    (hN : 0 < b.length) (hW : b.length < 65536) :
    (∀ k, k < b.length →
      ((ColorWipeUpdate none)^[k] (ColorWipe c iv .FORWARD (mkStrip b))).Index = k ∧
      ((ColorWipeUpdate none)^[k] (ColorWipe c iv .FORWARD (mkStrip b))).pixels
        = List.replicate k c ++ b.drop k ∧
      ((ColorWipeUpdate none)^[k + 1] (ColorWipe c iv .FORWARD (mkStrip b))).pixels
        = (((ColorWipeUpdate none)^[k] (ColorWipe c iv .FORWARD (mkStrip b))).pixels).set k c) ∧
    ((ColorWipeUpdate none)^[b.length] (ColorWipe c iv .FORWARD (mkStrip b))).pixels
      = List.replicate b.length c := by
  constructor
  · intro k hk
    obtain ⟨_, _, _, _, hpx, hidx⟩ := wipe_iter b c iv hW k hk.le
    obtain ⟨_, _, _, _, hpx1, _⟩ := wipe_iter b c iv hW (k + 1) hk
    refine ⟨by rw [hidx, if_pos hk], hpx, ?_⟩
    rw [hpx1, hpx, set_fill c k b hk]
  · obtain ⟨_, _, _, _, hpx, _⟩ := wipe_iter b c iv hW b.length le_rfl
    rw [hpx, List.drop_length, List.append_nil]

/-- Witness for C5 on the concrete 3-pixel buffer `[5, 6, 7]`. -/
theorem color_wipe_full_cycle_witness :
    ((ColorWipeUpdate none)^[3] (ColorWipe 9 1 .FORWARD (mkStrip [5, 6, 7]))).pixels
      = List.replicate 3 9 :=
  (color_wipe_full_cycle [5, 6, 7] 9 1 (by decide) (by decide)).2

/-- C4: for `TotalSteps > 0` and `Index < TotalSteps`, a Fade frame sets
every cell of the buffer to the single color whose channels are
`(channel1 * (TotalSteps - Index) + channel2 * Index) / TotalSteps` with
truncating division, `channel1`/`channel2` being the 8-bit channels of
`Color1`/`Color2`; and the Pulse frame is that same frame. -/
theorem fade_frame_paints_interpolated_color (s : NeoPatterns)
    (h0 : 0 < s.TotalSteps) (hT : s.TotalSteps < 65536) (hI : s.Index < s.TotalSteps) :
    (FadeFrame s).pixels =
      List.replicate s.pixels.length
        (Color
          ((Red s.Color1 * (s.TotalSteps - s.Index) + Red s.Color2 * s.Index) / s.TotalSteps)
          ((Green s.Color1 * (s.TotalSteps - s.Index) + Green s.Color2 * s.Index) / s.TotalSteps)
          ((Blue s.Color1 * (s.TotalSteps - s.Index) + Blue s.Color2 * s.Index) / s.TotalSteps)) ∧
    Red
        (Color
          ((Red s.Color1 * (s.TotalSteps - s.Index) + Red s.Color2 * s.Index) / s.TotalSteps)
          ((Green s.Color1 * (s.TotalSteps - s.Index) + Green s.Color2 * s.Index) / s.TotalSteps)
          ((Blue s.Color1 * (s.TotalSteps - s.Index) + Blue s.Color2 * s.Index) / s.TotalSteps)) =
      (Red s.Color1 * (s.TotalSteps - s.Index) + Red s.Color2 * s.Index) / s.TotalSteps ∧
    Green
        (Color
          ((Red s.Color1 * (s.TotalSteps - s.Index) + Red s.Color2 * s.Index) / s.TotalSteps)
          ((Green s.Color1 * (s.TotalSteps - s.Index) + Green s.Color2 * s.Index) / s.TotalSteps)
          ((Blue s.Color1 * (s.TotalSteps - s.Index) + Blue s.Color2 * s.Index) / s.TotalSteps)) =
      (Green s.Color1 * (s.TotalSteps - s.Index) + Green s.Color2 * s.Index) / s.TotalSteps ∧
    Blue
        (Color
          ((Red s.Color1 * (s.TotalSteps - s.Index) + Red s.Color2 * s.Index) / s.TotalSteps)
          ((Green s.Color1 * (s.TotalSteps - s.Index) + Green s.Color2 * s.Index) / s.TotalSteps)
          ((Blue s.Color1 * (s.TotalSteps - s.Index) + Blue s.Color2 * s.Index) / s.TotalSteps)) =
      (Blue s.Color1 * (s.TotalSteps - s.Index) + Blue s.Color2 * s.Index) / s.TotalSteps ∧
    frameFor .PULSE s = FadeFrame s := by
  have hsub : sub16 s.TotalSteps s.Index = s.TotalSteps - s.Index :=
    sub16_eq _ _ hI.le hT
  have hcR := interp_channel_lt (Red s.Color1) (Red s.Color2) s.TotalSteps s.Index
    (channel_lt s.Color1).1 (channel_lt s.Color2).1 hI.le h0
  have hcG := interp_channel_lt (Green s.Color1) (Green s.Color2) s.TotalSteps s.Index
    (channel_lt s.Color1).2.1 (channel_lt s.Color2).2.1 hI.le h0
  have hcB := interp_channel_lt (Blue s.Color1) (Blue s.Color2) s.TotalSteps s.Index
    (channel_lt s.Color1).2.2 (channel_lt s.Color2).2.2 hI.le h0
  refine ⟨?_, ?_, ?_, ?_, rfl⟩
  · simp only [FadeFrame, hsub, ColorSet, showPix]
    simp [List.map_const']
  · rw [Red_Color, Nat.mod_eq_of_lt hcR]
  · rw [Green_Color, Nat.mod_eq_of_lt hcG]
  · rw [Blue_Color, Nat.mod_eq_of_lt hcB]

/-- A concrete Fade state: amber toward black, `TotalSteps = 50`, `Index = 20`. -/
def eFade : NeoPatterns :=
  { mkStrip [1, 2] with
      ActivePattern := .FADE, Direction := .FORWARD, Interval := 10,
      Color1 := Color 127 127 0, Color2 := Color 0 0 0, TotalSteps := 50, Index := 20 }

/-- Witness for C4 at the concrete state `eFade`. -/
theorem fade_frame_paints_interpolated_color_witness :
    (FadeFrame eFade).pixels =
      List.replicate eFade.pixels.length
        (Color
          ((Red eFade.Color1 * (eFade.TotalSteps - eFade.Index) + Red eFade.Color2 * eFade.Index) / eFade.TotalSteps)
          ((Green eFade.Color1 * (eFade.TotalSteps - eFade.Index) + Green eFade.Color2 * eFade.Index) / eFade.TotalSteps)
          ((Blue eFade.Color1 * (eFade.TotalSteps - eFade.Index) + Blue eFade.Color2 * eFade.Index) / eFade.TotalSteps)) :=
  (fade_frame_paints_interpolated_color eFade (by decide) (by decide) (by decide)).1

/-- The core index update changes only `Index`. -/
theorem IncrementCore_fields (s : NeoPatterns) :
    (IncrementCore s).1.lastUpdate = s.lastUpdate ∧
    (IncrementCore s).1.shows = s.shows ∧
    (IncrementCore s).1.pixels = s.pixels ∧
    (IncrementCore s).1.ActivePattern = s.ActivePattern := by
  cases h : s.Direction <;> simp only [IncrementCore, h] <;> split <;> simp

/-- No pattern frame touches the timestamp. -/
theorem frameFor_lastUpdate (p : pattern) (s : NeoPatterns) :
    (frameFor p s).lastUpdate = s.lastUpdate := by
  cases p <;>
    simp [frameFor, RainbowCycleFrame, TheaterChaseFrame, ColorWipeFrame, ScannerFrame,
      FadeFrame, showPix, ColorSet, setPixelColor]

/-- No pattern frame touches the step counter. -/
theorem frameFor_Index (p : pattern) (s : NeoPatterns) :
    (frameFor p s).Index = s.Index := by
  cases p <;>
    simp [frameFor, RainbowCycleFrame, TheaterChaseFrame, ColorWipeFrame, ScannerFrame,
      FadeFrame, showPix, ColorSet, setPixelColor]

/-- Every buffer a single frame commits is that frame's final buffer: a frame
pushes one frame content (Fade/Pulse push it twice, once from `ColorSet` and
once from `FadeUpdate`'s own `show()`, but with identical content). -/
theorem frameFor_commits (p : pattern) (s : NeoPatterns) :
    ∃ l, (frameFor p s).shows = l ++ s.shows ∧
      ∀ x ∈ l, x = (frameFor p s).pixels := by
  cases p with
  | NONE => exact ⟨[], by simp [frameFor], by simp⟩
  | RAINBOW_CYCLE =>
    refine ⟨[(frameFor .RAINBOW_CYCLE s).pixels], ?_, by simp⟩
    simp [frameFor, RainbowCycleFrame, showPix]
  | THEATER_CHASE =>
    refine ⟨[(frameFor .THEATER_CHASE s).pixels], ?_, by simp⟩
    simp [frameFor, TheaterChaseFrame, showPix]
  | COLOR_WIPE =>
    refine ⟨[(frameFor .COLOR_WIPE s).pixels], ?_, by simp⟩
    simp [frameFor, ColorWipeFrame, showPix, setPixelColor]
  | SCANNER =>
    refine ⟨[(frameFor .SCANNER s).pixels], ?_, by simp⟩
    simp [frameFor, ScannerFrame, showPix]
  | FADE =>
    refine ⟨[(frameFor .FADE s).pixels, (frameFor .FADE s).pixels], ?_, by simp⟩
    simp [frameFor, FadeFrame, showPix, ColorSet]
  | PULSE =>
    refine ⟨[(frameFor .PULSE s).pixels, (frameFor .PULSE s).pixels], ?_, by simp⟩
    simp [frameFor, FadeFrame, showPix, ColorSet]

/-- Every pattern frame other than the idle default commits at least once. -/
theorem frameFor_shows_lt (p : pattern) (s : NeoPatterns) (hp : p ≠ .NONE) :
    s.shows.length < (frameFor p s).shows.length := by
  cases p
  case NONE => exact absurd rfl hp
  all_goals
    simp [frameFor, RainbowCycleFrame, TheaterChaseFrame, ColorWipeFrame, ScannerFrame,
      FadeFrame, showPix, ColorSet, setPixelColor]
  all_goals omega

/-- When the interval has not strictly elapsed, the core update does nothing. -/
theorem UpdateCore_noop (now : Nat) (s : NeoPatterns)
    (h : ¬ s.Interval < elapsedMs now s) : UpdateCore now s = (s, false) := by
  rw [UpdateCore, if_neg h]

/-- With no active pattern, an elapsed tick only records the timestamp. -/
theorem UpdateCore_nonepat (now : Nat) (s : NeoPatterns)
    (hp : s.ActivePattern = .NONE) (h : s.Interval < elapsedMs now s) :
    UpdateCore now s = ({ s with lastUpdate := now % 4294967296 }, false) := by
  rw [UpdateCore, if_pos h]
  simp only []
  rw [if_pos]
  exact hp

/-- With an active pattern, an elapsed tick records the timestamp, renders one
frame, and runs the core index update. -/
theorem UpdateCore_tick (now : Nat) (s : NeoPatterns)
    (hp : s.ActivePattern ≠ .NONE) (h : s.Interval < elapsedMs now s) :
    UpdateCore now s
      = IncrementCore (frameFor s.ActivePattern { s with lastUpdate := now % 4294967296 }) := by
  rw [UpdateCore, if_pos h]
  simp only []
  rw [if_neg]
  exact hp

/-- When the completion flag is not raised, `Update` is the core result. -/
theorem Update_of_core_false (cb : Option (NeoPatterns → NeoPatterns)) (now : Nat)
    (s e : NeoPatterns) (h : UpdateCore now s = (e, false)) : Update cb now s = e := by
  rw [Update, h]
  simp

/-- C2 (amended: the no-op region is `nowMs - lastUpdate ≤ Interval`, not `<`):
when `nowMs - lastUpdate ≤ Interval` the call is a strict no-op; when it is
strictly greater, the call records `lastUpdate = nowMs`, computes one frame for
the active pattern, commits the buffer (the commit log strictly grows), and
advances the step counter via `Increment`. -/
theorem update_ticks_only_after_interval (cb : Option (NeoPatterns → NeoPatterns))
    (now : Nat) (s : NeoPatterns) (hp : s.ActivePattern ≠ .NONE) :
    (elapsedMs now s ≤ s.Interval → Update cb now s = s) ∧
    (s.Interval < elapsedMs now s →
      Update cb now s
        = Increment cb (frameFor s.ActivePattern { s with lastUpdate := now % 4294967296 }) ∧
      (Update none now s).lastUpdate = now % 4294967296 ∧
      s.shows.length < (Update none now s).shows.length) := by
  constructor
  · intro h
    exact Update_of_core_false cb now s s (UpdateCore_noop now s (by omega))
  · intro h
    have hcore := UpdateCore_tick now s hp h
    refine ⟨?_, ?_, ?_⟩
    · rw [Update, Increment, hcore]
    · rw [Update_none, hcore, (IncrementCore_fields _).1, frameFor_lastUpdate]
    · rw [Update_none, hcore, (IncrementCore_fields _).2.1]
      exact frameFor_shows_lt s.ActivePattern { s with lastUpdate := now % 4294967296 } hp

/-- Witness for C2 at `eBoundary` with `nowMs = 11` (elapsed 11 > interval 10). -/
theorem update_ticks_only_after_interval_witness :
    Update none 11 eBoundary
      = Increment none (frameFor eBoundary.ActivePattern
          { eBoundary with lastUpdate := 11 % 4294967296 }) :=
  ((update_ticks_only_after_interval none 11 eBoundary (by decide)).2 (by decide)).1

/-- C10: one `Update()` call never catches up on missed intervals: whatever
`nowMs` is, the result is the unchanged state, the state with only the
timestamp recorded, or exactly one frame followed by one `Increment`; the
step counter moves by at most one core update, and every buffer committed
during the call is the one frame's content. -/
theorem tick_advances_at_most_one_step (cb : Option (NeoPatterns → NeoPatterns))
    (now : Nat) (s : NeoPatterns) :
    (Update cb now s = s ∨
     Update cb now s = { s with lastUpdate := now % 4294967296 } ∨
     Update cb now s
       = Increment cb (frameFor s.ActivePattern { s with lastUpdate := now % 4294967296 })) ∧
    ((Update none now s).Index = s.Index ∨
     (Update none now s).Index
       = (IncrementCore (frameFor s.ActivePattern
            { s with lastUpdate := now % 4294967296 })).1.Index) ∧
    (∃ l, (Update none now s).shows = l ++ s.shows ∧
      ∀ x ∈ l, x = (frameFor s.ActivePattern { s with lastUpdate := now % 4294967296 }).pixels) := by
  by_cases ht : s.Interval < elapsedMs now s
  · by_cases hp : s.ActivePattern = .NONE
    · have hcore := UpdateCore_nonepat now s hp ht
      refine ⟨Or.inr (Or.inl ?_), Or.inl ?_, ⟨[], ?_, by simp⟩⟩
      · exact Update_of_core_false cb now s _ hcore
      · rw [Update_none, hcore]
      · rw [Update_none, hcore]
        rfl
    · have hcore := UpdateCore_tick now s hp ht
      obtain ⟨l, hl, hall⟩ := frameFor_commits s.ActivePattern { s with lastUpdate := now % 4294967296 }
      refine ⟨Or.inr (Or.inr ?_), Or.inr ?_, ⟨l, ?_, hall⟩⟩
      · rw [Update, Increment, hcore]
      · rw [Update_none, hcore]
      · rw [Update_none, hcore, (IncrementCore_fields _).2.1, hl]
  · have hcore := UpdateCore_noop now s ht
    refine ⟨Or.inl ?_, Or.inl ?_, ⟨[], ?_, by simp⟩⟩
    · exact Update_of_core_false cb now s s hcore
    · rw [Update_none, hcore]
    · rw [Update_none, hcore]
      rfl

/-- No pattern frame changes which pattern is active. -/
theorem frameFor_ActivePattern (p : pattern) (s : NeoPatterns) :
    (frameFor p s).ActivePattern = s.ActivePattern := by
  cases p <;>
    simp [frameFor, RainbowCycleFrame, TheaterChaseFrame, ColorWipeFrame, ScannerFrame,
      FadeFrame, showPix, ColorSet, setPixelColor]

/-- An idle strip (`ActivePattern = NONE`) never raises the completion flag,
stays idle, and its buffer is untouched by `Update`'s core. -/
theorem UpdateCore_idle (now : Nat) (s : NeoPatterns) (h : s.ActivePattern = .NONE) :
    (UpdateCore now s).2 = false ∧
    (UpdateCore now s).1.ActivePattern = .NONE ∧
    (UpdateCore now s).1.pixels = s.pixels := by
  by_cases ht : s.Interval < elapsedMs now s
  · rw [UpdateCore_nonepat now s h ht]
    exact ⟨rfl, h, rfl⟩
  · rw [UpdateCore_noop now s ht]
    exact ⟨rfl, h, rfl⟩

/-- `StripComplete` leaves a strip alone unless it is pulsing. -/
theorem StripCompleteE_not_pulse (s : NeoPatterns) (h : s.ActivePattern ≠ .PULSE) :
    StripCompleteE s = s := by
  rw [StripCompleteE, if_neg h]

/-- Ticking strip 2 does not touch a non-pulsing strip 1. -/
theorem UpdateSys2_strip1 (n : Nat) (sys : StripSystem)
    (h : sys.Strip1.ActivePattern ≠ .PULSE) : (UpdateSys2 n sys).Strip1 = sys.Strip1 := by
  simp only [UpdateSys2]
  split
  · exact StripCompleteE_not_pulse _ h
  · rfl

/-- Ticking strip 3 does not touch a non-pulsing strip 1. -/
theorem UpdateSys3_strip1 (n : Nat) (sys : StripSystem)
    (h : sys.Strip1.ActivePattern ≠ .PULSE) : (UpdateSys3 n sys).Strip1 = sys.Strip1 := by
  simp only [UpdateSys3]
  split
  · exact StripCompleteE_not_pulse _ h
  · rfl

/-- A full loop iteration keeps an idle strip 1 idle with its buffer intact. -/
theorem loop_preserves_idle_strip1 (n1 n2 n3 : Nat) (sys : StripSystem)
    (h : sys.Strip1.ActivePattern = .NONE) :
    (loopStrips n1 n2 n3 sys).Strip1.ActivePattern = .NONE ∧
    (loopStrips n1 n2 n3 sys).Strip1.pixels = sys.Strip1.pixels := by
  obtain ⟨hf, hp1, hpx⟩ := UpdateCore_idle n1 sys.Strip1 h
  have h1 : UpdateSys1 n1 sys = { sys with Strip1 := (UpdateCore n1 sys.Strip1).1 } := by
    simp [UpdateSys1, hf]
  have hnp : ({ sys with Strip1 := (UpdateCore n1 sys.Strip1).1 } : StripSystem).Strip1.ActivePattern ≠ .PULSE := by
    rw [show ({ sys with Strip1 := (UpdateCore n1 sys.Strip1).1 } : StripSystem).Strip1.ActivePattern = pattern.NONE from hp1]
    simp
  have h2 := UpdateSys2_strip1 n2 { sys with Strip1 := (UpdateCore n1 sys.Strip1).1 } hnp
  have hnp3 : (UpdateSys2 n2 { sys with Strip1 := (UpdateCore n1 sys.Strip1).1 }).Strip1.ActivePattern ≠ .PULSE := by
    rw [h2]
    exact hnp
  have h3 := UpdateSys3_strip1 n3 (UpdateSys2 n2 { sys with Strip1 := (UpdateCore n1 sys.Strip1).1 }) hnp3
  rw [loopStrips, h1, h3, h2]
  exact ⟨hp1, hpx⟩

/-- Any number of loop iterations keeps an idle strip 1 idle with its buffer intact. -/
theorem runTicks_preserves_idle_strip1 (ts : List (Nat × Nat × Nat)) (sys : StripSystem)
    (h : sys.Strip1.ActivePattern = .NONE) :
    (runTicks ts sys).Strip1.ActivePattern = .NONE ∧
    (runTicks ts sys).Strip1.pixels = sys.Strip1.pixels := by
  induction ts generalizing sys with
  | nil => exact ⟨h, rfl⟩
  | cons t ts ih =>
    obtain ⟨h1, h2⟩ := loop_preserves_idle_strip1 t.1 t.2.1 t.2.2 sys h
    obtain ⟨h3, h4⟩ := ih (loopStrips t.1 t.2.1 t.2.2 sys) h1
    refine ⟨?_, ?_⟩
    · simpa [runTicks, List.foldl_cons] using h3
    · simp only [runTicks, List.foldl_cons] at h4 ⊢
      rw [h4, h2]

/-- C8: from any prior state of strip 1 (a running pulse included), the
command byte 52 (the character 4) followed by 55 (the character 7) leaves
strip 1 with `ActivePattern = NONE` and every cell of its buffer amber
`(127, 127, 0)`, and any number of subsequent loop ticks leaves that buffer
unchanged. -/
theorem cmd4_then_cmd7_paints_amber_idle (sys : StripSystem) (ts : List (Nat × Nat × Nat)) :
    (read_from_serial 55 (read_from_serial 52 sys)).Strip1.ActivePattern = .NONE ∧
    (read_from_serial 55 (read_from_serial 52 sys)).Strip1.pixels
      = List.replicate sys.Strip1.pixels.length (Color 127 127 0) ∧
    (runTicks ts (read_from_serial 55 (read_from_serial 52 sys))).Strip1.pixels
      = (read_from_serial 55 (read_from_serial 52 sys)).Strip1.pixels := by
  have hap : (read_from_serial 55 (read_from_serial 52 sys)).Strip1.ActivePattern = .NONE := by
    simp [read_from_serial, ColorSet, showPix]
  have hpx : (read_from_serial 55 (read_from_serial 52 sys)).Strip1.pixels
      = List.replicate sys.Strip1.pixels.length (Color 127 127 0) := by
    simp [read_from_serial, ColorSet, showPix, List.map_const']
  exact ⟨hap, hpx, (runTicks_preserves_idle_strip1 ts _ hap).2⟩

end Neo
